import Mathlib

/-!
Verification of the MathTools repository: forward-mode automatic
differentiation with dual numbers (src/diff.py) and root finding by
bisection and Newton iteration (src/root.py).

The Python scalar domain (float or complex) is modelled by a type
parameter `α`; claims about real scalars instantiate it with a
`LinearOrderedField` (or state the theorem generically over one), claims
about complex scalars instantiate it with `ℂ`.  Python exceptions are
modelled with `Except MathError`.
-/

namespace MathTools

/-- The error taxonomy of the repository: `ZeroDivisionError` raised by
division (src/diff.py lines 42, 53), `ValueError` raised by `Dlog`/`Dabs`
domain checks and the bisection bracket check, and `RuntimeError` raised
when Newton exceeds `max_iter`. -/
inductive MathError : Type where
  | divisionByZero : MathError
  | domainError : MathError
  | bracketError : MathError
  | convergenceError : MathError
deriving DecidableEq

/-- `DualNumber(real, dual)` from src/diff.py: `real` is the function
value, `dual` the derivative value. -/
structure DualNumber (α : Type) where
  real : α
  dual : α
deriving DecidableEq

namespace DualNumber

variable {α : Type} [Field α] [DecidableEq α]

/-- `__add__` on two dual numbers (src/diff.py lines 22-24). -/
def add (x y : DualNumber α) : DualNumber α :=
  ⟨x.real + y.real, x.dual + y.dual⟩

/-- `__add__` with a plain scalar right operand (src/diff.py lines 25-26);
`__radd__` is the same function. -/
def addScalar (x : DualNumber α) (k : α) : DualNumber α :=
  ⟨x.real + k, x.dual⟩

/-- `__sub__` on two dual numbers (src/diff.py lines 14-16). -/
def sub (x y : DualNumber α) : DualNumber α :=
  ⟨x.real - y.real, x.dual - y.dual⟩

/-- `__sub__` with a plain scalar right operand (src/diff.py lines 17-18). -/
def subScalar (x : DualNumber α) (k : α) : DualNumber α :=
  ⟨x.real - k, x.dual⟩

/-- `__rsub__` (src/diff.py line 20): the source aliases it to `__sub__`,
so the Python expression `k - x` dispatches to `x.__sub__(k)`, which takes
the scalar branch. -/
def rsub (k : α) (x : DualNumber α) : DualNumber α :=
  subScalar x k

/-- `__mul__` on two dual numbers (src/diff.py lines 30-34). -/
def mul (x y : DualNumber α) : DualNumber α :=
  ⟨x.real * y.real, x.dual * y.real + x.real * y.dual⟩

/-- `__mul__` with a plain scalar right operand (src/diff.py lines 35-36);
`__rmul__` is the same function. -/
def mulScalar (x : DualNumber α) (k : α) : DualNumber α :=
  ⟨x.real * k, x.dual * k⟩

/-- `__truediv__` with a dual-number divisor (src/diff.py lines 40-47):
the guard raises `ZeroDivisionError` when the divisor's `real` component
is zero, before the quotient formula is evaluated.  (The Python guard
`other == 0` is always false for a `DualNumber` operand, which defines no
`__eq__`, so for this branch the guard is exactly `other.real == 0`.) -/
def truediv (x y : DualNumber α) : Except MathError (DualNumber α) :=
  if y.real = 0 then .error .divisionByZero
  else .ok ⟨x.real / y.real, (x.dual * y.real - x.real * y.dual) / y.real ^ 2⟩

/-- `__truediv__` with a plain scalar divisor (src/diff.py lines 40-42,
48-49): the guard `other == 0` raises `ZeroDivisionError` on a zero
scalar. -/
def truedivScalar (x : DualNumber α) (k : α) : Except MathError (DualNumber α) :=
  if k = 0 then .error .divisionByZero
  else .ok ⟨x.real / k, x.dual / k⟩

/-- `__rtruediv__` with a plain scalar dividend (src/diff.py lines 51-53,
59-60), the only branch reachable from Python operator dispatch: the
guard raises `ZeroDivisionError` when the dual-number divisor's `real`
component is zero. -/
def rtruediv (k : α) (x : DualNumber α) : Except MathError (DualNumber α) :=
  if x.real = 0 then .error .divisionByZero
  else .ok ⟨k / x.real, (-k * x.dual) / x.real ^ 2⟩

/-- `__pow__` (src/diff.py lines 62-67): `result` starts as a copy of the
dual number and is multiplied by it `power - 1` times; Python's
`range(power - 1)` is empty whenever `power <= 1`, which `Int.toNat`
reproduces. -/
def pow (x : DualNumber α) (power : ℤ) : DualNumber α :=
  (fun r => mul r x)^[(power - 1).toNat] ⟨x.real, x.dual⟩

end DualNumber

/-- `diff(f, x_value)` (src/diff.py lines 122-133): seed a dual number
`(x, 1)`, evaluate `f` on it, return the `dual` component. -/
def diff {α : Type} [Field α] (f : DualNumber α → DualNumber α) (x : α) : α :=
  (f ⟨x, 1⟩).dual

/-- `Dlog` on a real-domain dual number (src/diff.py lines 79-87): the
`isinstance(..., complex)` test fails, so the non-positivity check runs
and raises `ValueError` on `real <= 0`; otherwise the result pairs the
logarithm of the value with the chain-rule derivative `dual / real`.
The logarithm itself is passed in as `lg` (the source calls `numpy.log`). -/
def Dlog {α : Type} [LinearOrderedField α] (lg : α → α) (x : DualNumber α) :
    Except MathError (DualNumber α) :=
  if x.real ≤ 0 then .error .domainError
  else .ok ⟨lg x.real, x.dual / x.real⟩

/-- `Dlog` on a complex-domain dual number (src/diff.py lines 83-84, 87):
the `isinstance(..., complex)` branch is `pass`, so no domain check at all
runs and the constructor is reached unconditionally.  The complex
logarithm is passed in as `clog` (the source calls `numpy.log`); the
scalar field is kept generic so the definition stays executable, and the
theorems instantiate it with `ℂ`. -/
def DlogC {β : Type} [Field β] (clog : β → β) (x : DualNumber β) : DualNumber β :=
  ⟨clog x.real, x.dual / x.real⟩

/-- Outcome of a `bisection` call (src/root.py lines 4-30):
`bracketError` models the `ValueError` raised by the endpoint sign check,
`out r` a normal return, and `fuelOut` exhaustion of the explicit fuel
that stands in for the source's unbounded `while` loop. -/
inductive BisectResult (α : Type) : Type where
  | bracketError : BisectResult α
  | fuelOut : BisectResult α
  | out : α → BisectResult α
deriving DecidableEq

section Root

variable {α : Type} [LinearOrderedField α]

/-- The `while abs(b - a) > epsilon` loop of `bisection` (src/root.py
lines 21-30), with explicit fuel bounding the number of iterations: when
the width test fails the final midpoint `(a + b) / 2` is returned; one
iteration computes the midpoint `p`, returns it if `|f(p)| <= epsilon`,
and otherwise keeps the half on which the endpoint values oppose in
sign (`b = p` when `f(a) * f(p) < 0`, else `a = p`). -/
def bisectLoop (f : α → α) (ε : α) : ℕ → α → α → BisectResult α
  | 0, a, b =>
    if |b - a| ≤ ε then .out ((a + b) / 2) else .fuelOut
  | n + 1, a, b =>
    if |b - a| ≤ ε then .out ((a + b) / 2)
    else
      if |f ((a + b) / 2)| ≤ ε then .out ((a + b) / 2)
      else if f a * f ((a + b) / 2) < 0 then bisectLoop f ε n a ((a + b) / 2)
      else bisectLoop f ε n ((a + b) / 2) b

/-- `bisection(f, a, b, epsilon)` (src/root.py lines 4-30): the endpoint
product check `f(a) * f(b) > 0` raises `ValueError` before the loop
starts; otherwise the halving loop runs. -/
def bisection (fuel : ℕ) (f : α → α) (a b ε : α) : BisectResult α :=
  if 0 < f a * f b then .bracketError else bisectLoop f ε fuel a b

/-- The bracket update of one non-returning bisection iteration
(src/root.py lines 25-28): with midpoint `p`, set `b = p` when
`f(a) * f(p) < 0` and `a = p` otherwise. -/
def bisectStep (f : α → α) (a b : α) : α × α :=
  if f a * f ((a + b) / 2) < 0 then (a, (a + b) / 2) else ((a + b) / 2, b)

/-- The bracket reached from an initial bracket after `k` non-returning
iterations of the bisection loop: `k`-fold application of the loop's own
endpoint update `bisectStep`. -/
def bisectIter (f : α → α) (k : ℕ) (p : α × α) : α × α :=
  (fun q : α × α => bisectStep f q.1 q.2)^[k] p

/-- The `for _ in range(max_iter)` loop of `newton` (src/root.py lines
51-63).  The source evaluates `fx = f(x)` and then `dfx = diff(f, x)`
before testing `|fx| <= epsilon`; `fD` is the dual-number evaluation
`diff(f, ·)`, which can raise (modelled with `Except`), and any such
exception propagates.  When `dfx` is available: return `x` if
`|fx| <= epsilon`; if `dfx == 0` perturb `x` by `epsilon` and continue;
otherwise take the Newton update `x - fx / dfx`.  An exhausted budget
raises `RuntimeError`. -/
def newtonLoop (f : α → α) (fD : α → Except MathError α) (ε : α) :
    ℕ → α → Except MathError α
  | 0, _ => .error .convergenceError
  | n + 1, x =>
    match fD x with
    | .error e => .error e
    | .ok dfx =>
      if |f x| ≤ ε then .ok x
      else if dfx = 0 then newtonLoop f fD ε n (x + ε)
      else newtonLoop f fD ε n (x - f x / dfx)

/-- `newton(f, epsilon, x0, max_iter)` (src/root.py lines 33-63) with an
explicitly supplied initial guess `x0` (the `x0 is None` fallback through
`bisection` on lines 47-48 is not exercised by the claims below, which all
supply `x0`). -/
def newton (f : α → α) (fD : α → Except MathError α) (ε x0 : α)
    (maxIter : ℕ) : Except MathError α :=
  newtonLoop f fD ε maxIter x0

end Root

/-! ### Supporting lemmas -/

/-- Closed form of the repeated-multiplication loop in `DualNumber.pow`
when the base is the seed `(a, 1)`: after `m` self-multiplications the
result is `(a ^ (m + 1), (m + 1) * a ^ m)`. -/
lemma pow_seed_iterate {α : Type} [Field α] (a : α) (m : ℕ) :
    (fun r => DualNumber.mul r (⟨a, 1⟩ : DualNumber α))^[m] ⟨a, 1⟩ =
      ⟨a ^ (m + 1), (m + 1 : ℕ) * a ^ m⟩ := by
  induction m with
  | zero => simp
  | succ m ih =>
      rw [Function.iterate_succ_apply', ih, DualNumber.mul]
      simp only [DualNumber.mk.injEq]
      constructor
      · rw [← pow_succ]
      · push_cast
        rw [pow_succ]
        ring

/-- The bisection loop never produces the bracket error: the endpoint
sign check happens only in `bisection` itself, before the loop. -/
lemma bisectLoop_ne_bracketError {α : Type} [LinearOrderedField α]
    (f : α → α) (ε : α) : ∀ (fuel : ℕ) (a b : α),
    bisectLoop f ε fuel a b ≠ .bracketError := by
  intro fuel
  induction fuel with
  | zero =>
      intro a b
      rw [bisectLoop]
      split_ifs <;> simp
  | succ n ih =>
      intro a b
      rw [bisectLoop]
      split_ifs with h1 h2 h3
      · simp
      · simp
      · exact ih a _
      · exact ih _ b

/-- One more bracket iteration is one `bisectStep` applied first. -/
lemma bisectIter_succ {α : Type} [LinearOrderedField α] (f : α → α)
    (k : ℕ) (p : α × α) :
    bisectIter f (k + 1) p = bisectIter f k (bisectStep f p.1 p.2) := by
  simp only [bisectIter, Function.iterate_succ_apply]

/-- If the bracket width is at most `ε * 2 ^ n`, then `bisectLoop` with
fuel `n` returns the midpoint of the bracket reached after some `k ≤ n`
of the loop's own halving updates, and at that point either the midpoint
value is within tolerance or the bracket width is at most `ε`. -/
lemma bisectLoop_out_bracket {α : Type} [LinearOrderedField α]
    (f : α → α) (ε : α) :
    ∀ (n : ℕ) (a b : α), |b - a| ≤ ε * 2 ^ n →
    ∃ r, bisectLoop f ε n a b = .out r ∧
      ∃ k ≤ n,
        r = ((bisectIter f k (a, b)).1 + (bisectIter f k (a, b)).2) / 2 ∧
        (|f r| ≤ ε ∨
          |(bisectIter f k (a, b)).2 - (bisectIter f k (a, b)).1| ≤ ε) := by
  intro n
  induction n with
  | zero =>
      intro a b hw
      rw [pow_zero, mul_one] at hw
      rw [bisectLoop, if_pos hw]
      refine ⟨(a + b) / 2, rfl, 0, le_refl 0, by simp [bisectIter], Or.inr ?_⟩
      simpa [bisectIter] using hw
  | succ m ih =>
      intro a b hw
      rw [bisectLoop]
      by_cases h1 : |b - a| ≤ ε
      · rw [if_pos h1]
        refine ⟨(a + b) / 2, rfl, 0, Nat.zero_le _, by simp [bisectIter], Or.inr ?_⟩
        simpa [bisectIter] using h1
      · rw [if_neg h1]
        by_cases h2 : |f ((a + b) / 2)| ≤ ε
        · rw [if_pos h2]
          exact ⟨(a + b) / 2, rfl, 0, Nat.zero_le _, by simp [bisectIter], Or.inl h2⟩
        · rw [if_neg h2]
          have hhalf : |b - a| / 2 ≤ ε * 2 ^ m := by
            rw [div_le_iff₀ (by norm_num : (0 : α) < 2)]
            calc |b - a| ≤ ε * 2 ^ (m + 1) := hw
            _ = ε * 2 ^ m * 2 := by ring
          by_cases h3 : f a * f ((a + b) / 2) < 0
          · rw [if_pos h3]
            have hleft : |(a + b) / 2 - a| ≤ ε * 2 ^ m := by
              have heq : (a + b) / 2 - a = (b - a) / 2 := by ring
              rw [heq, abs_div, abs_two]
              exact hhalf
            obtain ⟨r, hout, k, hk, hmid, hdisj⟩ := ih a ((a + b) / 2) hleft
            have hg : bisectStep f a b = (a, (a + b) / 2) := by
              simp [bisectStep, h3]
            refine ⟨r, hout, k + 1, Nat.succ_le_succ hk, ?_, ?_⟩
            · rw [bisectIter_succ]
              dsimp only
              rw [hg]
              exact hmid
            · rw [bisectIter_succ]
              dsimp only
              rw [hg]
              exact hdisj
          · rw [if_neg h3]
            have hright : |b - (a + b) / 2| ≤ ε * 2 ^ m := by
              have heq : b - (a + b) / 2 = (b - a) / 2 := by ring
              rw [heq, abs_div, abs_two]
              exact hhalf
            obtain ⟨r, hout, k, hk, hmid, hdisj⟩ := ih ((a + b) / 2) b hright
            have hg : bisectStep f a b = ((a + b) / 2, b) := by
              simp [bisectStep, h3]
            refine ⟨r, hout, k + 1, Nat.succ_le_succ hk, ?_, ?_⟩
            · rw [bisectIter_succ]
              dsimp only
              rw [hg]
              exact hmid
            · rw [bisectIter_succ]
              dsimp only
              rw [hg]
              exact hdisj

/-! ### Claims -/

/-- C1: differentiating `x ↦ x ** n` at `a` through the driver (seed
`DualNumber(a, 1)`, evaluate, take the `dual` component) yields
`n * a ** (n - 1)` for every integer `n ≥ 1` and every `a ≠ 0`, with
`pow` computed by `n - 1` successive self-multiplications. -/
theorem diff_pow_rule {α : Type} [Field α] (n : ℤ) (a : α) (hn : 1 ≤ n)
    (ha : a ≠ 0) :
    diff (fun x => DualNumber.pow x n) a = (n : α) * a ^ (n - 1) := by
  obtain ⟨m, rfl⟩ : ∃ m : ℕ, n = (m : ℤ) + 1 := ⟨(n - 1).toNat, by omega⟩
  simp only [diff, DualNumber.pow]
  have h1 : ((m : ℤ) + 1 - 1).toNat = m := by omega
  have h2 : (m : ℤ) + 1 - 1 = (m : ℤ) := by ring
  rw [h1, pow_seed_iterate, h2, zpow_natCast]
  push_cast
  ring

/-- C1 witness: `n = 3`, `a = 2` over `ℚ`; the derivative of `x ^ 3` at
`2` is `12 = 3 * 2 ^ 2`. -/
theorem diff_pow_rule_witness :
    (1 : ℤ) ≤ 3 ∧ (2 : ℚ) ≠ 0 ∧
      diff (fun x => DualNumber.pow x 3) (2 : ℚ) = ((3 : ℤ) : ℚ) * 2 ^ ((3 : ℤ) - 1) :=
  ⟨by norm_num, by norm_num, diff_pow_rule 3 2 (by norm_num) (by norm_num)⟩

/-- C2: the source aliases `__rsub__` to `__sub__`, so the scalar-on-left
subtraction `5 - (2, 1)` evaluates to `(2 - 5, 1) = (-3, 1)` instead of
the `(k - a, -b) = (3, -1)` that the mixed-type rule requires. -/
theorem rsub_drops_negation :
    DualNumber.rsub (5 : ℚ) ⟨2, 1⟩ = ⟨-3, 1⟩ ∧
      DualNumber.rsub (5 : ℚ) ⟨2, 1⟩ ≠ ⟨3, -1⟩ := by
  norm_num [DualNumber.rsub, DualNumber.subScalar, DualNumber.mk.injEq]

/-- C3: each division form raises `DivisionByZero` exactly when the
divisor's `real` component is zero — `__truediv__` with a dual-number
divisor when `other.real == 0`, with a scalar divisor when the scalar is
zero, and `__rtruediv__` (scalar / dual number) when the dual number's
`real` is zero — and returns a value (no error) otherwise.  The check is
the first statement of each method, before any arithmetic. -/
theorem div_checks_zero_real {α : Type} [Field α] [DecidableEq α]
    (x y : DualNumber α) (k : α) :
    (DualNumber.truediv x y = .error .divisionByZero ↔ y.real = 0) ∧
    (DualNumber.truedivScalar x k = .error .divisionByZero ↔ k = 0) ∧
    (DualNumber.rtruediv k y = .error .divisionByZero ↔ y.real = 0) := by
  refine ⟨?_, ?_, ?_⟩
  · rw [DualNumber.truediv]
    split_ifs with h <;> simp [h]
  · rw [DualNumber.truedivScalar]
    split_ifs with h <;> simp [h]
  · rw [DualNumber.rtruediv]
    split_ifs with h <;> simp [h]

/-- C4: `Dlog` on the real domain fails with a `DomainError` exactly when
the value component is `≤ 0`, and on a positive value returns
`(lg a, b / a)`; on the complex domain the `isinstance` branch skips the
check entirely, so `DlogC` is total and no zero test is performed. -/
theorem Dlog_domain_check {α : Type} [LinearOrderedField α] (lg : α → α)
    (x : DualNumber α) :
    (Dlog lg x = .error .domainError ↔ x.real ≤ 0) ∧
    (0 < x.real → Dlog lg x = .ok ⟨lg x.real, x.dual / x.real⟩) ∧
    (∀ clog : ℂ → ℂ, ∀ y : DualNumber ℂ,
      DlogC clog y = ⟨clog y.real, y.dual / y.real⟩) := by
  refine ⟨?_, ?_, fun clog y => rfl⟩
  · rw [Dlog]
    split_ifs with h <;> simp [h]
  · intro hpos
    rw [Dlog, if_neg (not_le.mpr hpos)]

/-- C4 witness: over `ℚ` with `lg` the identity, `Dlog` at the dual
number `(1, 2)` has positive value component and returns `(lg 1, 2 / 1)`. -/
theorem Dlog_domain_check_witness :
    (0 : ℚ) < (DualNumber.mk (1 : ℚ) 2).real ∧
      Dlog (fun t => t) (⟨1, 2⟩ : DualNumber ℚ) = .ok ⟨(fun t : ℚ => t) 1, 2 / 1⟩ :=
  ⟨by norm_num, (Dlog_domain_check (fun t => t) ⟨1, 2⟩).2.1 (by norm_num)⟩

/-- C5 counterexample: with `f = id`, `a = 0`, `b = 2`, `ε = 1/10` over
`ℚ`, the entry bracket satisfies `f(a) * f(b) ≤ 0` and the iteration does
not return early (`|f(p)| = 1 > ε`), yet the halving step takes the
`else` branch (`f(a) * f(p) = 0` is not `< 0`), sets `a = p = 1`, and the
resulting bracket `[1, 2]` violates the invariant: `f(1) * f(2) = 2 > 0`. -/
theorem bisectStep_invariant_fails :
    (fun x : ℚ => x) 0 * (fun x : ℚ => x) 2 ≤ 0 ∧
    ¬ |(fun x : ℚ => x) ((0 + 2) / 2)| ≤ (1 / 10 : ℚ) ∧
    bisectStep (fun x : ℚ => x) 0 2 = (1, 2) ∧
    ¬ (fun x : ℚ => x) 1 * (fun x : ℚ => x) 2 ≤ 0 := by
  refine ⟨by norm_num, by norm_num, ?_, by norm_num⟩
  norm_num [bisectStep]

/-- C5 amended: when the entry bracket satisfies the strict invariant
`f(a) * f(b) < 0` and the iteration does not return the midpoint early
(`|f(p)| > ε ≥ 0`), the halving step (`b = p` when `f(a) * f(p) < 0`,
`a = p` otherwise) preserves the strict invariant — hence also
`f(a) * f(b) ≤ 0` — on the resulting bracket.  With only the weak entry
invariant `f(a) * f(b) ≤ 0` the step can lose the invariant when
`f(a) = 0`. -/
theorem bisectStep_preserves_strict_bracket {α : Type} [LinearOrderedField α]
    (f : α → α) (a b ε : α) (hε : 0 ≤ ε) (hab : f a * f b < 0)
    (hp : ¬ |f ((a + b) / 2)| ≤ ε) :
    f (bisectStep f a b).1 * f (bisectStep f a b).2 < 0 := by
  have hfp : f ((a + b) / 2) ≠ 0 := by
    intro h0
    exact hp (by rw [h0, abs_zero]; exact hε)
  rw [bisectStep]
  split_ifs with h
  · exact h
  · push_neg at h
    dsimp only
    rcases hfp.lt_or_lt with hneg | hpos
    · have hfa : f a ≤ 0 := by
        by_contra hfa
        push_neg at hfa
        nlinarith
      have hfb : 0 < f b := by
        by_contra hfb
        push_neg at hfb
        nlinarith
      exact mul_neg_of_neg_of_pos hneg hfb
    · have hfa : 0 ≤ f a := by
        by_contra hfa
        push_neg at hfa
        nlinarith
      have hfb : f b < 0 := by
        by_contra hfb
        push_neg at hfb
        nlinarith
      exact mul_neg_of_pos_of_neg hpos hfb

/-- C5 amended witness: `f x = x - 1` on the bracket `[0, 3]` with
`ε = 1/10`: the strict invariant holds at entry, the midpoint is not
within tolerance, and the step's bracket again satisfies the strict
invariant. -/
theorem bisectStep_preserves_strict_bracket_witness :
    (0 : ℚ) ≤ 1 / 10 ∧
    ((fun x : ℚ => x - 1) 0 * (fun x : ℚ => x - 1) 3 < 0) ∧
    ¬ |(fun x : ℚ => x - 1) ((0 + 3) / 2)| ≤ (1 / 10 : ℚ) ∧
    (fun x : ℚ => x - 1) (bisectStep (fun x : ℚ => x - 1) 0 3).1 *
      (fun x : ℚ => x - 1) (bisectStep (fun x : ℚ => x - 1) 0 3).2 < 0 :=
  ⟨by norm_num, by norm_num, by rw [abs_le]; norm_num,
    bisectStep_preserves_strict_bracket (fun x : ℚ => x - 1) 0 3 (1 / 10)
      (by norm_num) (by norm_num) (by rw [abs_le]; norm_num)⟩

/-- C6: `bisection` reports the bracket error exactly when
`f(a) * f(b) > 0`; the check precedes the halving loop, so the
equivalence holds for every fuel budget, including zero iterations. -/
theorem bisection_bracket_check {α : Type} [LinearOrderedField α]
    (fuel : ℕ) (f : α → α) (a b ε : α) :
    bisection fuel f a b ε = .bracketError ↔ 0 < f a * f b := by
  rw [bisection]
  split_ifs with h
  · simp [h]
  · exact iff_of_false (bisectLoop_ne_bracketError f ε fuel a b) h

/-- C7: for positive `ε` and a bracket with `f(a) * f(b) ≤ 0` whose width
is at most `ε * 2 ^ n` — i.e. `n ≥ log2((b - a) / ε)` in exact
arithmetic — the loop terminates within `n` halvings: the returned value
is the midpoint of the bracket `bisectIter f k (a, b)` actually reached
after some `k ≤ n` of the loop's own endpoint updates, and there either
the midpoint satisfies `|f(p)| ≤ ε` (early return) or that final bracket
has width at most `ε` (loop exit). -/
theorem bisection_terminates {α : Type} [LinearOrderedField α]
    (f : α → α) (a b ε : α) (n : ℕ) (hε : 0 < ε) (hbr : f a * f b ≤ 0)
    (hw : |b - a| ≤ ε * 2 ^ n) :
    ∃ r, bisection n f a b ε = .out r ∧
      ∃ k ≤ n,
        r = ((bisectIter f k (a, b)).1 + (bisectIter f k (a, b)).2) / 2 ∧
        (|f r| ≤ ε ∨
          |(bisectIter f k (a, b)).2 - (bisectIter f k (a, b)).1| ≤ ε) := by
  rw [bisection, if_neg (not_lt.mpr hbr)]
  exact bisectLoop_out_bracket f ε n a b hw

/-- C7 witness: `f x = x - 1` on `[0, 2]` with `ε = 1/2` and `n = 2`
halvings allowed (`|2 - 0| = 2 ≤ (1/2) * 2 ^ 2`). -/
theorem bisection_terminates_witness :
    (0 : ℚ) < 1 / 2 ∧
    ((fun x : ℚ => x - 1) 0 * (fun x : ℚ => x - 1) 2 ≤ 0) ∧
    |(2 : ℚ) - 0| ≤ (1 / 2) * 2 ^ 2 ∧
    ∃ r, bisection 2 (fun x : ℚ => x - 1) 0 2 (1 / 2) = .out r ∧
      ∃ k ≤ 2,
        r = ((bisectIter (fun x : ℚ => x - 1) k (0, 2)).1 +
              (bisectIter (fun x : ℚ => x - 1) k (0, 2)).2) / 2 ∧
        (|(fun x : ℚ => x - 1) r| ≤ 1 / 2 ∨
          |(bisectIter (fun x : ℚ => x - 1) k (0, 2)).2 -
            (bisectIter (fun x : ℚ => x - 1) k (0, 2)).1| ≤ 1 / 2) :=
  ⟨by norm_num, by norm_num, by rw [abs_le]; norm_num,
    bisection_terminates (fun x : ℚ => x - 1) 0 2 (1 / 2) 2 (by norm_num)
      (by norm_num) (by rw [abs_le]; norm_num)⟩

/-- C8 counterexample: the source computes `dfx = diff(f, x)` on line 53,
before the `abs(fx) <= epsilon` test on line 55, so a failing derivative
evaluation propagates even when the supplied `x0` already satisfies the
convergence test: with `f = 0`, `ε = 1`, `x0 = 0` and a derivative
evaluation that raises, `newton` does not return `x0`. -/
theorem newton_diff_before_check :
    |(fun _ : ℚ => (0 : ℚ)) 0| ≤ (1 : ℚ) ∧
    newton (fun _ : ℚ => 0) (fun _ => .error .divisionByZero) 1 0 1 ≠ .ok 0 := by
  refine ⟨by norm_num, ?_⟩
  rw [newton, newtonLoop]
  simp

/-- C8 amended: in each Newton iteration `fx = f(x)` and then
`dfx = diff(f, x)` are evaluated before the convergence test, so `x` is
returned when `|fx| ≤ ε` only provided the derivative evaluation at `x`
succeeds; in particular, for `x0` with `|f(x0)| ≤ ε` and a successful
derivative evaluation (whatever its value), `newton` returns `x0`. -/
theorem newton_returns_converged_x0 {α : Type} [LinearOrderedField α]
    (f : α → α) (fD : α → Except MathError α) (ε x0 d : α) (maxIter : ℕ)
    (hd : fD x0 = .ok d) (hfx : |f x0| ≤ ε) (hiter : 1 ≤ maxIter) :
    newton f fD ε x0 maxIter = .ok x0 := by
  obtain ⟨m, rfl⟩ : ∃ m, maxIter = m + 1 := ⟨maxIter - 1, by omega⟩
  rw [newton, newtonLoop, hd]
  simp only [if_pos hfx]

/-- C8 amended witness: `f = 0`, derivative evaluation succeeding with
value `1`, `ε = 1`, `x0 = 0`, one iteration allowed. -/
theorem newton_returns_converged_x0_witness :
    ((fun _ : ℚ => (Except.ok 1 : Except MathError ℚ)) 0 = .ok 1) ∧
    |(fun _ : ℚ => (0 : ℚ)) 0| ≤ (1 : ℚ) ∧ (1 : ℕ) ≤ 1 ∧
    newton (fun _ : ℚ => 0) (fun _ => .ok 1) 1 0 1 = .ok 0 :=
  ⟨rfl, by norm_num, le_refl 1,
    newton_returns_converged_x0 (fun _ : ℚ => 0) (fun _ => .ok 1) 1 0 1 1 rfl
      (by norm_num) (le_refl 1)⟩

/-- C9: in an iteration where the derivative evaluation yields `dfx = 0`
and `|f(x)| > ε`, Newton does not fail: the iterate is perturbed to
`x + ε` and the loop continues, consuming exactly one unit of the
iteration budget with no Newton update applied. -/
theorem newton_stationary_perturbs {α : Type} [LinearOrderedField α]
    (f : α → α) (fD : α → Except MathError α) (ε x : α) (n : ℕ)
    (hd : fD x = .ok 0) (hfx : ¬ |f x| ≤ ε) :
    newtonLoop f fD ε (n + 1) x = newtonLoop f fD ε n (x + ε) := by
  rw [newtonLoop, hd]
  simp [hfx]

/-- C9 witness: `f = 1`, derivative evaluation yielding `0`, `ε = 1/2`,
`x = 0`: the iteration with budget `0 + 1` reduces to the iteration with
budget `0` at the perturbed iterate `0 + 1/2`. -/
theorem newton_stationary_perturbs_witness :
    ((fun _ : ℚ => (Except.ok 0 : Except MathError ℚ)) 0 = .ok 0) ∧
    ¬ |(fun _ : ℚ => (1 : ℚ)) 0| ≤ (1 / 2 : ℚ) ∧
    newtonLoop (fun _ : ℚ => 1) (fun _ => .ok 0) (1 / 2) (0 + 1) 0 =
      newtonLoop (fun _ : ℚ => 1) (fun _ => .ok 0) (1 / 2) 0 (0 + 1 / 2) :=
  ⟨rfl, by rw [abs_le]; norm_num,
    newton_stationary_perturbs (fun _ : ℚ => 1) (fun _ => .ok 0) (1 / 2) 0 0 rfl
      (by rw [abs_le]; norm_num)⟩

/-- C10: for every integer exponent `power ≤ 1` (including `1`, `0`, and
negative exponents) the repeated-multiplication loop of `__pow__` runs
`range(power - 1)`, which is empty, so the result is the input dual
number itself; no rejection of zero or negative exponents occurs. -/
theorem pow_exponent_le_one {α : Type} [Field α] (x : DualNumber α)
    (power : ℤ) (h : power ≤ 1) : DualNumber.pow x power = x := by
  rw [DualNumber.pow]
  have h0 : (power - 1).toNat = 0 := by omega
  rw [h0]
  rfl

/-- C10 witness: exponent `-2 ≤ 1` on the dual number `(2, 3)` over `ℚ`
returns the input unchanged. -/
theorem pow_exponent_le_one_witness :
    (-2 : ℤ) ≤ 1 ∧ DualNumber.pow (⟨2, 3⟩ : DualNumber ℚ) (-2) = ⟨2, 3⟩ :=
  ⟨by norm_num, pow_exponent_le_one ⟨2, 3⟩ (-2) (by norm_num)⟩

end MathTools
